import Mathlib

/-!
Verification development for the clinic queue-management engine
(`skeletonCodeAssessment2.py`).

Modelling conventions:
* `datetime` values are modelled as integer timestamps in seconds;
  `timedelta.total_seconds() // 60` becomes `Int.fdiv (a - s) 60`
  (Python `//` floors, also on negative differences).
* Ambient randomness (`random.choice`, `random.randint`) is modelled by an
  explicit draw argument: the draw selects the index into the choice list.
  Fields the Python constructor defaults randomly (name, source, condition,
  consultation time) are taken as explicit arguments here, except the draw
  consumed unconditionally by `_calculate_urgency`, which is kept explicit
  because the urgency value depends on it.
* Python's `heapq` (a binary min-heap w.r.t. `__lt__`, ties in unspecified
  order) is modelled by its observable contract: the heap is represented by
  its drain order, `heappush` inserts in `__lt__` order and `heappop` takes
  the head, so every pop returns a least element w.r.t. `__lt__`.
* Python's builtin `min(xs, key=k)` returns the first encountered element
  with minimal key and raises `ValueError` on an empty sequence; the model
  returns `none` in that case and the caller maps it to the unhandled
  `ValueError` outcome.
-/

/-- Embedding of the `Patient` record (`Patient.__init__`): the fields set by
the constructor.  `medical_condition` is the `(name, severity)` pair. -/
structure Patient where
  patient_id : String
  name : String
  contact_number : Option String
  scheduled_time : Int
  arrival_time : Int
  source : String
  medical_condition : String × Int
  urgency : Int
  priority : Int
  status : String
  wait_time : Option Int
deriving DecidableEq, Repr

/-- Embedding of the condition list in `Patient._generate_medical_condition`. -/
def conditions : List (String × Int) :=
  [("Minor Checkup", 1), ("Routine Prescription", 2),
   ("Chronic Disease Follow-up", 3), ("Acute Pain", 4), ("Severe Symptoms", 5)]

/-- Embedding of `Patient._generate_medical_condition`: `random.choice` over
`conditions`, the random draw `r` selecting the index. -/
def generate_medical_condition (r : Nat) : String × Int :=
  conditions.getD (r % conditions.length) ("Minor Checkup", 1)

/-- Embedding of `Patient._calculate_urgency`: the source returns
`self._generate_medical_condition()[1]`, i.e. the severity of a FRESH random
condition (draw `r`), not of the patient's own `medical_condition`. -/
def calculate_urgency (r : Nat) : Int :=
  (generate_medical_condition r).2

/-- Embedding of the `source_priority` dict lookup
`{'Walk-in': -1, 'App': 1, 'WhatsApp': 0}.get(source, 0)` in
`Patient.calculate_priority`. -/
def source_priority (source : String) : Int :=
  if source = "Walk-in" then -1
  else if source = "App" then 1
  else if source = "WhatsApp" then 0
  else 0

/-- Embedding of `Patient.calculate_priority`:
`delay = max(0, (arrival_time - scheduled_time).total_seconds() // 60)` and
`(urgency * 10) - delay + source_priority.get(source, 0)`. -/
def calculate_priority (urgency scheduled_time arrival_time : Int)
    (source : String) : Int :=
  urgency * 10 - max 0 ((arrival_time - scheduled_time).fdiv 60)
    + source_priority source

/-- Embedding of `Patient.__init__` with every input explicit plus the random
draw `r` consumed by `self._calculate_urgency()`. -/
def Patient.init (patient_id name : String) (contact_number : Option String)
    (scheduled_time arrival_time : Int) (source : String)
    (medical_condition : String × Int) (r : Nat) : Patient :=
  let u := calculate_urgency r
  { patient_id := patient_id
    name := name
    contact_number := contact_number
    scheduled_time := scheduled_time
    arrival_time := arrival_time
    source := source
    medical_condition := medical_condition
    urgency := u
    priority := calculate_priority u scheduled_time arrival_time source
    status := "Scheduled"
    wait_time := none }

/-- Embedding of `Patient.__lt__`: `self.priority > other.priority`
(reversed so Python's min-heap pops the greatest priority first). -/
def Patient.lt (a b : Patient) : Bool :=
  decide (b.priority < a.priority)

/-- Modelled from the spec (section 4.1): delay in whole minutes, clamped at
zero for early or on-time arrival. -/
def spec_delay_minutes (scheduled_time arrival_time : Int) : Int :=
  max 0 ((arrival_time - scheduled_time).fdiv 60)

/-- Modelled from the spec (section 4.1): Walk-in = -1, App = +1,
WhatsApp = 0, unknown source = 0. -/
def spec_source_adjustment (source : String) : Int :=
  if source = "Walk-in" then -1
  else if source = "App" then 1
  else 0

/-- C1: the computed priority equals
`urgency * 10 - delay_minutes + source_adjustment` with
`delay_minutes = max(0, floor minutes from scheduled to arrival)` and the
source adjustment table Walk-in = -1, App = +1, WhatsApp = 0, unknown = 0. -/
theorem c1_priority_formula (pid nm : String) (cn : Option String)
    (s a : Int) (src : String) (mc : String × Int) (r : Nat) :
    (Patient.init pid nm cn s a src mc r).priority =
      (Patient.init pid nm cn s a src mc r).urgency * 10
        - spec_delay_minutes s a + spec_source_adjustment src := by
  show calculate_priority (calculate_urgency r) s a src = _
  unfold calculate_priority spec_delay_minutes source_priority
    spec_source_adjustment
  split_ifs <;> rfl

/-- Helper: the source's priority is antitone in the scheduled time (a later
scheduled time means a smaller clamped delay, hence a larger or equal
priority for the later-scheduled patient). -/
lemma calculate_priority_mono (u s1 s2 a : Int) (src : String) (h : s1 ≤ s2) :
    calculate_priority u s1 a src ≤ calculate_priority u s2 a src := by
  unfold calculate_priority
  have h1 : (a - s2).fdiv 60 ≤ (a - s1).fdiv 60 := by
    rw [Int.fdiv_eq_ediv _ (by norm_num : (0 : Int) ≤ 60),
        Int.fdiv_eq_ediv _ (by norm_num : (0 : Int) ≤ 60)]
    exact Int.ediv_le_ediv (by norm_num) (by omega)
  have h2 : max 0 ((a - s2).fdiv 60) ≤ max 0 ((a - s1).fdiv 60) :=
    max_le_max le_rfl h1
  omega

/-- C2 counterexample: two patients with the same urgency draw, source,
condition and arrival instant; the earlier-scheduled one (one minute overdue)
gets a STRICTLY SMALLER priority, because the source subtracts the delay. -/
theorem c2_counterexample :
    (Patient.init "P1" "n" none 0 60 "WhatsApp" ("Minor Checkup", 1) 0).scheduled_time
        < (Patient.init "P2" "n" none 60 60 "WhatsApp" ("Minor Checkup", 1) 0).scheduled_time ∧
    (Patient.init "P1" "n" none 0 60 "WhatsApp" ("Minor Checkup", 1) 0).arrival_time
        = (Patient.init "P2" "n" none 60 60 "WhatsApp" ("Minor Checkup", 1) 0).arrival_time ∧
    (Patient.init "P1" "n" none 0 60 "WhatsApp" ("Minor Checkup", 1) 0).source
        = (Patient.init "P2" "n" none 60 60 "WhatsApp" ("Minor Checkup", 1) 0).source ∧
    (Patient.init "P1" "n" none 0 60 "WhatsApp" ("Minor Checkup", 1) 0).medical_condition
        = (Patient.init "P2" "n" none 60 60 "WhatsApp" ("Minor Checkup", 1) 0).medical_condition ∧
    (Patient.init "P1" "n" none 0 60 "WhatsApp" ("Minor Checkup", 1) 0).urgency
        = (Patient.init "P2" "n" none 60 60 "WhatsApp" ("Minor Checkup", 1) 0).urgency ∧
    ¬ ((Patient.init "P2" "n" none 60 60 "WhatsApp" ("Minor Checkup", 1) 0).priority
        ≤ (Patient.init "P1" "n" none 0 60 "WhatsApp" ("Minor Checkup", 1) 0).priority) := by
  decide

/-- C2 amended: priority is NON-INCREASING in the overdue delay — for fixed
urgency and source, a later scheduled time (smaller delay at the same arrival
instant) gives a greater-or-equal priority, so the earlier-scheduled patient
p1 satisfies p1.priority ≤ p2.priority. -/
theorem c2_amended :
    (∀ (u s1 s2 a : Int) (src : String), s1 ≤ s2 →
      calculate_priority u s1 a src ≤ calculate_priority u s2 a src) ∧
    (∀ (pid1 nm1 pid2 nm2 : String) (cn : Option String) (s1 s2 a : Int)
        (src : String) (mc : String × Int) (r : Nat), s1 < s2 →
      (Patient.init pid1 nm1 cn s1 a src mc r).priority
        ≤ (Patient.init pid2 nm2 cn s2 a src mc r).priority) := by
  refine ⟨fun u s1 s2 a src h => calculate_priority_mono u s1 s2 a src h, ?_⟩
  intro pid1 nm1 pid2 nm2 cn s1 s2 a src mc r h
  exact calculate_priority_mono (calculate_urgency r) s1 s2 a src (le_of_lt h)

/-- C2 amended witness at a concrete input. -/
theorem c2_amended_witness :
    ((0 : Int) ≤ 60 ∧ calculate_priority 1 0 60 "App" ≤ calculate_priority 1 60 60 "App") ∧
    ((0 : Int) < 60 ∧
      (Patient.init "P1" "n" none 0 60 "App" ("Minor Checkup", 1) 0).priority
        ≤ (Patient.init "P2" "n" none 60 60 "App" ("Minor Checkup", 1) 0).priority) :=
  ⟨⟨by decide, c2_amended.1 1 0 60 60 "App" (by decide)⟩,
   ⟨by decide, c2_amended.2 "P1" "n" "P2" "n" none 0 60 60 "App" ("Minor Checkup", 1) 0 (by decide)⟩⟩

/-- C3: the code contradicts its own docstring ("Calculate urgency based on
medical condition") — `_calculate_urgency` draws a FRESH random condition and
uses its severity, ignoring the patient's own `medical_condition`.  At the
failing input below the patient's condition is Minor Checkup (severity 1) but
the urgency draw lands on Severe Symptoms, so `urgency = 5 ≠ 1`. -/
theorem c3_urgency_ignores_condition :
    (Patient.init "P1" "n" none 0 0 "App" ("Minor Checkup", 1) 4).medical_condition.2 = 1 ∧
    (Patient.init "P1" "n" none 0 0 "App" ("Minor Checkup", 1) 4).urgency = 5 ∧
    (Patient.init "P1" "n" none 0 0 "App" ("Minor Checkup", 1) 4).urgency
      ≠ (Patient.init "P1" "n" none 0 0 "App" ("Minor Checkup", 1) 4).medical_condition.2 := by
  decide

/-- C9: two patients created with identical explicit inputs (same condition,
scheduled time, arrival time and source) but different ambient random draws
receive different urgency and different priority — construction is NOT
deterministic in the explicit inputs, because `_calculate_urgency` consumes
ambient randomness. -/
theorem c9_priority_depends_on_randomness :
    (Patient.init "A" "n" none 0 0 "App" ("Minor Checkup", 1) 0).medical_condition
      = (Patient.init "A" "n" none 0 0 "App" ("Minor Checkup", 1) 4).medical_condition ∧
    (Patient.init "A" "n" none 0 0 "App" ("Minor Checkup", 1) 0).scheduled_time
      = (Patient.init "A" "n" none 0 0 "App" ("Minor Checkup", 1) 4).scheduled_time ∧
    (Patient.init "A" "n" none 0 0 "App" ("Minor Checkup", 1) 0).arrival_time
      = (Patient.init "A" "n" none 0 0 "App" ("Minor Checkup", 1) 4).arrival_time ∧
    (Patient.init "A" "n" none 0 0 "App" ("Minor Checkup", 1) 0).source
      = (Patient.init "A" "n" none 0 0 "App" ("Minor Checkup", 1) 4).source ∧
    (Patient.init "A" "n" none 0 0 "App" ("Minor Checkup", 1) 0).urgency
      ≠ (Patient.init "A" "n" none 0 0 "App" ("Minor Checkup", 1) 4).urgency ∧
    (Patient.init "A" "n" none 0 0 "App" ("Minor Checkup", 1) 0).priority
      ≠ (Patient.init "A" "n" none 0 0 "App" ("Minor Checkup", 1) 4).priority := by
  decide

/-- Embedding of the `Doctor` record: id, specialization, the patient heap
(represented by its drain order, see the header), and the average
consultation time (`random.randint(10, 25)` in the source, taken as an
explicit argument; `availability_blocks` and `daily_capacity` are opaque data
never read by the core logic and are omitted). -/
structure Doctor where
  doctor_id : String
  specialization : String
  queue : List Patient
  avg_consultation_time : Int
deriving DecidableEq, Repr

/-- Embedding of `Doctor.__init__`: the queue starts empty. -/
def Doctor.init (doctor_id specialization : String)
    (avg_consultation_time : Int) : Doctor :=
  { doctor_id := doctor_id
    specialization := specialization
    queue := []
    avg_consultation_time := avg_consultation_time }

/-- Model of `heapq.heappush` on a `Patient` heap ordered by `Patient.lt`
(`__lt__`): insert keeping the drain order, so the head is always a least
element w.r.t. `__lt__`, i.e. a greatest-priority patient. -/
def heappush (q : List Patient) (p : Patient) : List Patient :=
  match q with
  | [] => [p]
  | x :: xs => if Patient.lt p x then p :: x :: xs else x :: heappush xs p

/-- Model of `heapq.heappop`: remove and return the least element w.r.t.
`__lt__` (the head of the drain order); `none` models popping an empty heap. -/
def heappop (q : List Patient) : Option (Patient × List Patient) :=
  match q with
  | [] => none
  | x :: xs => some (x, xs)

/-- Embedding of `Doctor.add_patient`: `heapq.heappush(self.queue, patient)`. -/
def Doctor.add_patient (d : Doctor) (p : Patient) : Doctor :=
  { d with queue := heappush d.queue p }

/-- Embedding of `Doctor.next_patient`:
`heapq.heappop(self.queue) if self.queue else None`; the pair returns the
popped patient (or `None`) together with the mutated doctor. -/
def Doctor.next_patient (d : Doctor) : Option Patient × Doctor :=
  match d.queue with
  | [] => (none, d)
  | x :: xs => (some x, { d with queue := xs })

/-- Embedding of `Doctor.estimate_wait_time`:
`len(self.queue) * self.avg_consultation_time`. -/
def Doctor.estimate_wait_time (d : Doctor) : Int :=
  (d.queue.length : Int) * d.avg_consultation_time

/-- Drain loop: call `next_patient` up to `fuel` times, collecting the popped
patients in order and returning the final doctor state. -/
def drain_patients : Nat → Doctor → List Patient × Doctor
  | 0, d => ([], d)
  | Nat.succ n, d =>
    match Doctor.next_patient d with
    | (none, d2) => ([], d2)
    | (some p, d2) =>
      let r := drain_patients n d2
      (p :: r.1, r.2)

/-- Ordering relation used to state the drain order: the left patient's
priority is at least the right one's. -/
def prioGE (a b : Patient) : Prop :=
  b.priority ≤ a.priority

/-- Helper: `heappush` produces a permutation of consing the new patient. -/
lemma heappush_perm (q : List Patient) (p : Patient) :
    (heappush q p).Perm (p :: q) := by
  induction q with
  | nil => simp [heappush]
  | cons x xs ih =>
    unfold heappush
    by_cases h : Patient.lt p x
    · simp [h]
    · simp only [h, if_neg, Bool.false_eq_true, not_false_eq_true, if_false]
      exact (ih.cons x).trans (List.Perm.swap p x xs)

/-- Helper: `heappush` keeps the drain order sorted by priority. -/
lemma heappush_sorted (q : List Patient) (p : Patient)
    (h : List.Sorted prioGE q) : List.Sorted prioGE (heappush q p) := by
  induction q with
  | nil => simp [heappush, List.Sorted]
  | cons x xs ih =>
    rw [List.sorted_cons] at h
    unfold heappush
    by_cases hlt : Patient.lt p x
    · have hpx : x.priority < p.priority := by
        simpa [Patient.lt] using hlt
      rw [if_pos hlt, List.sorted_cons]
      refine ⟨?_, ?_⟩
      · intro b hb
        rcases List.mem_cons.mp hb with rfl | hb
        · exact le_of_lt hpx
        · exact le_trans (h.1 b hb) (le_of_lt hpx)
      · rw [List.sorted_cons]
        exact h
    · have hxp : p.priority ≤ x.priority := by
        simpa [Patient.lt] using hlt
      rw [if_neg hlt, List.sorted_cons]
      refine ⟨?_, ih h.2⟩
      intro b hb
      have hb2 : b ∈ p :: xs := (heappush_perm xs p).mem_iff.mp hb
      rcases List.mem_cons.mp hb2 with rfl | hb2
      · exact hxp
      · exact h.1 b hb2

/-- Helper: folding `heappush` over the inputs permutes them onto the heap. -/
lemma foldl_heappush_perm (ps : List Patient) :
    ∀ q : List Patient, (ps.foldl heappush q).Perm (ps ++ q) := by
  induction ps with
  | nil => intro q; simp
  | cons p ps ih =>
    intro q
    have h1 : (ps.foldl heappush (heappush q p)).Perm (ps ++ heappush q p) := ih _
    have h2 : (ps ++ heappush q p).Perm (ps ++ p :: q) :=
      (heappush_perm q p).append_left ps
    have h3 : (ps ++ p :: q).Perm (p :: (ps ++ q)) := List.perm_middle
    simpa using h1.trans (h2.trans h3)

/-- Helper: folding `heappush` preserves sortedness of the drain order. -/
lemma foldl_heappush_sorted (ps : List Patient) :
    ∀ q : List Patient, List.Sorted prioGE q →
      List.Sorted prioGE (ps.foldl heappush q) := by
  induction ps with
  | nil => intro q h; simpa using h
  | cons p ps ih =>
    intro q h
    exact ih _ (heappush_sorted q p h)

/-- Helper: folding `add_patient` only changes the queue field, by folding
`heappush` over it. -/
lemma foldl_add_patient (ps : List Patient) :
    ∀ (did sp : String) (q : List Patient) (avg : Int),
      ps.foldl Doctor.add_patient ⟨did, sp, q, avg⟩
        = ⟨did, sp, ps.foldl heappush q, avg⟩ := by
  induction ps with
  | nil => intro did sp q avg; rfl
  | cons p ps ih =>
    intro did sp q avg
    simp only [List.foldl_cons]
    exact ih did sp (heappush q p) avg

/-- Helper: draining with fuel equal to the queue length empties the queue
and returns exactly the drain order. -/
lemma drain_patients_all (q : List Patient) :
    ∀ (did sp : String) (avg : Int),
      drain_patients q.length ⟨did, sp, q, avg⟩ = (q, ⟨did, sp, [], avg⟩) := by
  induction q with
  | nil => intro did sp avg; rfl
  | cons x xs ih =>
    intro did sp avg
    simp only [List.length_cons, drain_patients, Doctor.next_patient, ih]

/-- C5: after pushing the patients `ps` onto a freshly constructed doctor's
queue, repeatedly calling `next_patient` returns the pushed patients in
non-increasing priority order, exhausts the queue after exactly `ps.length`
pops, and the following call signals empty (returns `none`) rather than
failing. -/
theorem c5_queue_drain (did sp : String) (avg : Int) (ps : List Patient) :
    (drain_patients ps.length
        (ps.foldl Doctor.add_patient (Doctor.init did sp avg))).1.Perm ps ∧
    (drain_patients ps.length
        (ps.foldl Doctor.add_patient (Doctor.init did sp avg))).1.length = ps.length ∧
    List.Sorted prioGE (drain_patients ps.length
        (ps.foldl Doctor.add_patient (Doctor.init did sp avg))).1 ∧
    (drain_patients ps.length
        (ps.foldl Doctor.add_patient (Doctor.init did sp avg))).2.queue = [] ∧
    (Doctor.next_patient (drain_patients ps.length
        (ps.foldl Doctor.add_patient (Doctor.init did sp avg))).2).1 = none := by
  have hfold : ps.foldl Doctor.add_patient (Doctor.init did sp avg)
      = ⟨did, sp, ps.foldl heappush [], avg⟩ := by
    show ps.foldl Doctor.add_patient ⟨did, sp, [], avg⟩ = _
    exact foldl_add_patient ps did sp [] avg
  have hperm : (ps.foldl heappush ([] : List Patient)).Perm ps := by
    simpa using foldl_heappush_perm ps []
  have hlen : (ps.foldl heappush ([] : List Patient)).length = ps.length :=
    hperm.length_eq
  have hsorted : List.Sorted prioGE (ps.foldl heappush ([] : List Patient)) :=
    foldl_heappush_sorted ps [] (by simp)
  have hdrain : drain_patients ps.length
      (⟨did, sp, ps.foldl heappush [], avg⟩ : Doctor)
      = (ps.foldl heappush [], ⟨did, sp, [], avg⟩) := by
    rw [← hlen]
    exact drain_patients_all (ps.foldl heappush []) did sp avg
  rw [hfold, hdrain]
  exact ⟨hperm, hlen, hsorted, rfl, rfl⟩

/-- Embedding of `QueueManagementSystem._map_condition_to_specialization`:
`mapping.get(medical_condition[0], "General")` — a total dictionary lookup on
the condition's name with default `"General"`. -/
def map_condition_to_specialization (medical_condition : String × Int) : String :=
  if medical_condition.1 = "Chronic Disease Follow-up" then "Cardiology"
  else if medical_condition.1 = "Acute Pain" then "Orthopedics"
  else if medical_condition.1 = "Severe Symptoms" then "Neurology"
  else "General"

/-- Embedding of `QueueManagementSystem._is_doctor_suitable`. -/
def is_doctor_suitable (doctor : Doctor) (patient : Patient) : Bool :=
  doctor.specialization == "General" ||
    doctor.specialization == map_condition_to_specialization patient.medical_condition

/-- Embedding of the candidate-list computation at the start of
`QueueManagementSystem.assign_patient`: filter the registry (a list in dict
insertion order) by `_is_doctor_suitable`; if empty, fall back to all
General-specialization doctors. -/
def candidate_doctors (doctors : List Doctor) (patient : Patient) : List Doctor :=
  if (doctors.filter (fun doc => is_doctor_suitable doc patient)).isEmpty then
    doctors.filter (fun doc => doc.specialization == "General")
  else doctors.filter (fun doc => is_doctor_suitable doc patient)

/-- Model of Python's `min(doctors, key=lambda d: d.estimate_wait_time())`:
returns the first encountered element with minimal key (a strictly smaller
key is required to displace the current minimum), `none` for the empty list
(where Python raises `ValueError`). -/
def min_by_wait : List Doctor → Option Doctor
  | [] => none
  | d :: rest =>
    match min_by_wait rest with
    | none => some d
    | some m =>
      if m.estimate_wait_time < d.estimate_wait_time then some m else some d

/-- Notification event emitted by `assign_patient` through
`CommunicationManager.send_notification`; the free-text message is modelled
by its data content `(patient_id, doctor_id, estimated wait minutes)`. -/
structure NotificationEvent where
  patient_id : String
  doctor_id : String
  estimated_wait : Int
deriving DecidableEq, Repr

/-- Outcome of `assign_patient`.  `ok` carries the returned (mutated) doctor,
the updated registry and the emitted notifications; `unhandledValueError`
models the `ValueError` Python's `min` raises on an empty candidate list.
`noAvailableDoctor` is modelled from the spec: the handled `NoAvailableDoctor`
failure a correct implementation should surface; the source never produces
it. -/
inductive AssignResult where
  | ok (best : Doctor) (doctors : List Doctor) (events : List NotificationEvent) : AssignResult
  | noAvailableDoctor : AssignResult
  | unhandledValueError : AssignResult
deriving DecidableEq, Repr

/-- Embedding of `QueueManagementSystem.assign_patient`: compute the
candidates, take the minimum-wait doctor (Python `min`), push the patient
onto that doctor's queue (in-place mutation modelled by replacing the
registry entry with the matching id — dict keys are unique), recompute the
wait estimate post-push, emit exactly one notification, and return the
doctor. -/
def assign_patient (doctors : List Doctor) (patient : Patient) : AssignResult :=
  match min_by_wait (candidate_doctors doctors patient) with
  | none => AssignResult.unhandledValueError
  | some best_doctor =>
    let best2 := best_doctor.add_patient patient
    let doctors2 := doctors.map fun d =>
      if d.doctor_id = best_doctor.doctor_id then best2 else d
    AssignResult.ok best2 doctors2
      [{ patient_id := patient.patient_id
         doctor_id := best2.doctor_id
         estimated_wait := best2.estimate_wait_time }]

/-- Modelled from the spec (section 4.4, step 4): select the doctor
minimizing `estimate_wait`, ties broken by doctor id ascending. -/
def spec_select : List Doctor → Option Doctor
  | [] => none
  | d :: rest =>
    match spec_select rest with
    | none => some d
    | some m =>
      if m.estimate_wait_time < d.estimate_wait_time ∨
          (m.estimate_wait_time = d.estimate_wait_time ∧ m.doctor_id < d.doctor_id)
      then some m else some d

/-- C7: the condition-to-specialization mapping is a total function (never
raises): the three special conditions map to Cardiology, Orthopedics and
Neurology, and every other condition name — whatever its severity — falls
through to General. -/
theorem c7_condition_mapping :
    (∀ s : Int, map_condition_to_specialization ("Chronic Disease Follow-up", s) = "Cardiology") ∧
    (∀ s : Int, map_condition_to_specialization ("Acute Pain", s) = "Orthopedics") ∧
    (∀ s : Int, map_condition_to_specialization ("Severe Symptoms", s) = "Neurology") ∧
    (∀ mc : String × Int,
      mc.1 ≠ "Chronic Disease Follow-up" → mc.1 ≠ "Acute Pain" →
      mc.1 ≠ "Severe Symptoms" → map_condition_to_specialization mc = "General") := by
  refine ⟨fun s => rfl, fun s => rfl, fun s => rfl, ?_⟩
  intro mc h1 h2 h3
  unfold map_condition_to_specialization
  rw [if_neg h1, if_neg h2, if_neg h3]

/-- C7 witness: an unmapped condition name maps to General. -/
theorem c7_condition_mapping_witness :
    ("Minor Checkup" : String) ≠ "Chronic Disease Follow-up" ∧
    ("Minor Checkup" : String) ≠ "Acute Pain" ∧
    ("Minor Checkup" : String) ≠ "Severe Symptoms" ∧
    map_condition_to_specialization ("Minor Checkup", 1) = "General" :=
  ⟨by decide, by decide, by decide,
   c7_condition_mapping.2.2.2 ("Minor Checkup", 1) (by decide) (by decide) (by decide)⟩

/-- Helper: Python's `min` returns the FIRST element attaining the minimal
key: the list splits as `l1 ++ d :: l2` with every element of `l1` strictly
above `d`'s wait and every element of `l2` at or above it. -/
lemma min_by_wait_split :
    ∀ (ds : List Doctor) (d : Doctor), min_by_wait ds = some d →
      ∃ l1 l2, ds = l1 ++ d :: l2 ∧
        (∀ x ∈ l1, d.estimate_wait_time < x.estimate_wait_time) ∧
        (∀ x ∈ l2, d.estimate_wait_time ≤ x.estimate_wait_time) := by
  intro ds
  induction ds with
  | nil => intro d h; simp [min_by_wait] at h
  | cons a rest ih =>
    intro d h
    unfold min_by_wait at h
    cases hr : min_by_wait rest with
    | none =>
      rw [hr] at h
      injection h with h
      subst h
      have hrest : rest = [] := by
        cases rest with
        | nil => rfl
        | cons b bs =>
          exfalso
          unfold min_by_wait at hr
          cases hbs : min_by_wait bs with
          | none =>
            simp only [hbs] at hr
            exact Option.noConfusion hr
          | some v =>
            simp only [hbs] at hr
            split at hr <;> exact Option.noConfusion hr
      subst hrest
      exact ⟨[], [], rfl, by simp, by simp⟩
    | some m =>
      simp only [hr] at h
      by_cases hlt : m.estimate_wait_time < a.estimate_wait_time
      · rw [if_pos hlt] at h
        obtain rfl : m = d := Option.some.inj h
        obtain ⟨l1, l2, heq, h1, h2⟩ := ih m hr
        refine ⟨a :: l1, l2, by rw [heq, List.cons_append], ?_, h2⟩
        intro x hx
        rcases List.mem_cons.mp hx with rfl | hx
        · exact hlt
        · exact h1 x hx
      · rw [if_neg hlt] at h
        obtain rfl : a = d := Option.some.inj h
        obtain ⟨l1, l2, heq, h1, h2⟩ := ih m hr
        have hdm : a.estimate_wait_time ≤ m.estimate_wait_time := le_of_not_lt hlt
        refine ⟨[], rest, rfl, by simp, ?_⟩
        intro x hx
        rw [heq] at hx
        rcases List.mem_append.mp hx with hx | hx
        · exact le_of_lt (lt_of_le_of_lt hdm (h1 x hx))
        · rcases List.mem_cons.mp hx with rfl | hx
          · exact hdm
          · exact le_trans hdm (h2 x hx)

/-- Helper: the selected doctor is one of the candidates. -/
lemma min_by_wait_mem {ds : List Doctor} {d : Doctor}
    (h : min_by_wait ds = some d) : d ∈ ds := by
  obtain ⟨l1, l2, heq, -, -⟩ := min_by_wait_split ds d h
  rw [heq]
  exact List.mem_append.mpr (Or.inr (List.mem_cons_self d l2))

/-- Helper: every candidate doctor comes from the registry. -/
lemma candidate_doctors_mem {ds : List Doctor} {p : Patient} {d : Doctor}
    (h : d ∈ candidate_doctors ds p) : d ∈ ds := by
  unfold candidate_doctors at h
  split at h <;> exact (List.mem_filter.mp h).1

/-- C6 counterexample: two General doctors with equal wait estimates, the
larger id inserted first.  Python's `min` keeps the first-encountered
minimum, so the source selects "DOC-2" while the spec's id-ascending
tie-break selects "DOC-1". -/
theorem c6_counterexample :
    candidate_doctors [Doctor.init "DOC-2" "General" 10, Doctor.init "DOC-1" "General" 10]
        (Patient.init "P" "n" none 0 0 "App" ("Minor Checkup", 1) 0)
      = [Doctor.init "DOC-2" "General" 10, Doctor.init "DOC-1" "General" 10] ∧
    (Doctor.init "DOC-2" "General" 10).estimate_wait_time
      = (Doctor.init "DOC-1" "General" 10).estimate_wait_time ∧
    min_by_wait [Doctor.init "DOC-2" "General" 10, Doctor.init "DOC-1" "General" 10]
      = some (Doctor.init "DOC-2" "General" 10) ∧
    spec_select [Doctor.init "DOC-2" "General" 10, Doctor.init "DOC-1" "General" 10]
      = some (Doctor.init "DOC-1" "General" 10) ∧
    (Doctor.init "DOC-2" "General" 10).doctor_id
      ≠ (Doctor.init "DOC-1" "General" 10).doctor_id := by
  refine ⟨rfl, rfl, rfl, ?_, by decide⟩
  have hlt : (Doctor.init "DOC-1" "General" 10).doctor_id
      < (Doctor.init "DOC-2" "General" 10).doctor_id := by
    rw [String.lt_iff_toList_lt]
    decide
  show (if (Doctor.init "DOC-1" "General" 10).estimate_wait_time
            < (Doctor.init "DOC-2" "General" 10).estimate_wait_time ∨
          ((Doctor.init "DOC-1" "General" 10).estimate_wait_time
            = (Doctor.init "DOC-2" "General" 10).estimate_wait_time ∧
           (Doctor.init "DOC-1" "General" 10).doctor_id
            < (Doctor.init "DOC-2" "General" 10).doctor_id)
        then some (Doctor.init "DOC-1" "General" 10)
        else some (Doctor.init "DOC-2" "General" 10))
      = some (Doctor.init "DOC-1" "General" 10)
  rw [if_pos (Or.inr ⟨rfl, hlt⟩)]

/-- C6 amended: among the candidate set (suitable doctors, falling back to
all General doctors), selection returns the doctor minimizing
`estimate_wait`; ties are broken by registry insertion order (the first
encountered minimum), not by doctor id. -/
theorem c6_selection_first_minimum (ds : List Doctor) (p : Patient) (d : Doctor)
    (h : min_by_wait (candidate_doctors ds p) = some d) :
    ∃ l1 l2, candidate_doctors ds p = l1 ++ d :: l2 ∧
      (∀ x ∈ l1, d.estimate_wait_time < x.estimate_wait_time) ∧
      (∀ x ∈ l2, d.estimate_wait_time ≤ x.estimate_wait_time) :=
  min_by_wait_split (candidate_doctors ds p) d h

/-- C6 witness at a concrete registry. -/
theorem c6_selection_first_minimum_witness :
    min_by_wait (candidate_doctors [Doctor.init "DOC-1" "General" 10]
        (Patient.init "P" "n" none 0 0 "App" ("Minor Checkup", 1) 0))
      = some (Doctor.init "DOC-1" "General" 10) ∧
    ∃ l1 l2,
      candidate_doctors [Doctor.init "DOC-1" "General" 10]
          (Patient.init "P" "n" none 0 0 "App" ("Minor Checkup", 1) 0)
        = l1 ++ Doctor.init "DOC-1" "General" 10 :: l2 ∧
      (∀ x ∈ l1,
        (Doctor.init "DOC-1" "General" 10).estimate_wait_time < x.estimate_wait_time) ∧
      (∀ x ∈ l2,
        (Doctor.init "DOC-1" "General" 10).estimate_wait_time ≤ x.estimate_wait_time) :=
  ⟨rfl, c6_selection_first_minimum _ _ _ rfl⟩

/-- C4 counterexample: a registry with a single Cardiology doctor and a
Severe Symptoms patient (required specialization Neurology): no suitable
doctor and no General fallback, so the source hits `min([])`, modelled as
the unhandled `ValueError` outcome — NOT the handled `NoAvailableDoctor`
failure the claim asserts. -/
theorem c4_counterexample :
    assign_patient [Doctor.init "DOC-1" "Cardiology" 10]
        (Patient.init "P" "n" none 0 0 "App" ("Severe Symptoms", 5) 4)
      = AssignResult.unhandledValueError ∧
    assign_patient [Doctor.init "DOC-1" "Cardiology" 10]
        (Patient.init "P" "n" none 0 0 "App" ("Severe Symptoms", 5) 4)
      ≠ AssignResult.noAvailableDoctor := by
  decide

/-- C4 amended: with zero General doctors and zero doctors matching the
patient's required specialization, `assign_patient` fails — but with the
unhandled `ValueError` raised by `min` over the empty candidate list, not
with a handled `NoAvailableDoctor` condition. -/
theorem c4_empty_candidates_value_error (ds : List Doctor) (p : Patient)
    (hg : ∀ d ∈ ds, d.specialization ≠ "General")
    (hm : ∀ d ∈ ds, d.specialization ≠
        map_condition_to_specialization p.medical_condition) :
    assign_patient ds p = AssignResult.unhandledValueError := by
  have hsuit : ds.filter (fun doc => is_doctor_suitable doc p) = [] := by
    rw [List.filter_eq_nil_iff]
    intro d hd
    simp only [is_doctor_suitable, Bool.or_eq_true, beq_iff_eq]
    push_neg
    exact ⟨hg d hd, hm d hd⟩
  have hgen : ds.filter (fun doc => doc.specialization == "General") = [] := by
    rw [List.filter_eq_nil_iff]
    intro d hd
    simp only [beq_iff_eq]
    exact hg d hd
  unfold assign_patient candidate_doctors
  rw [hsuit, hgen]
  rfl

/-- C4 witness at a concrete registry. -/
theorem c4_empty_candidates_value_error_witness :
    (∀ d ∈ [Doctor.init "DOC-1" "Cardiology" 10], d.specialization ≠ "General") ∧
    (∀ d ∈ [Doctor.init "DOC-1" "Cardiology" 10], d.specialization ≠
      map_condition_to_specialization
        (Patient.init "P" "n" none 0 0 "App" ("Severe Symptoms", 5) 4).medical_condition) ∧
    assign_patient [Doctor.init "DOC-1" "Cardiology" 10]
        (Patient.init "P" "n" none 0 0 "App" ("Severe Symptoms", 5) 4)
      = AssignResult.unhandledValueError :=
  ⟨by decide, by decide,
   c4_empty_candidates_value_error _ _ (by decide) (by decide)⟩

/-- Helper: the successful branch of `assign_patient`, unfolded. -/
lemma assign_patient_eq_ok {ds : List Doctor} {p : Patient} {sel : Doctor}
    (hm : min_by_wait (candidate_doctors ds p) = some sel) :
    assign_patient ds p = AssignResult.ok (sel.add_patient p)
      (ds.map fun d => if d.doctor_id = sel.doctor_id then sel.add_patient p else d)
      [{ patient_id := p.patient_id
         doctor_id := (sel.add_patient p).doctor_id
         estimated_wait := (sel.add_patient p).estimate_wait_time }] := by
  unfold assign_patient
  rw [hm]

/-- Helper: the empty-candidates branch of `assign_patient`, unfolded. -/
lemma assign_patient_eq_err {ds : List Doctor} {p : Patient}
    (hm : min_by_wait (candidate_doctors ds p) = none) :
    assign_patient ds p = AssignResult.unhandledValueError := by
  unfold assign_patient
  rw [hm]

/-- C8: every successful `assign_patient` call pushes the patient onto the
selected doctor's queue, emits exactly one notification whose estimated wait
is recomputed after the push (post-push queue length times the doctor's
average consultation time), and returns that (mutated) doctor. -/
theorem c8_assign_effects (ds : List Doctor) (p : Patient) (best : Doctor)
    (ds2 : List Doctor) (evs : List NotificationEvent)
    (h : assign_patient ds p = AssignResult.ok best ds2 evs) :
    ∃ sel, min_by_wait (candidate_doctors ds p) = some sel ∧
      best = sel.add_patient p ∧
      best.queue.Perm (p :: sel.queue) ∧
      best.queue.length = sel.queue.length + 1 ∧
      best.doctor_id = sel.doctor_id ∧
      evs = [{ patient_id := p.patient_id
               doctor_id := best.doctor_id
               estimated_wait := (best.queue.length : Int) * best.avg_consultation_time }] := by
  cases hm : min_by_wait (candidate_doctors ds p) with
  | none =>
    rw [assign_patient_eq_err hm] at h
    exact AssignResult.noConfusion h
  | some sel =>
    rw [assign_patient_eq_ok hm] at h
    cases h
    refine ⟨sel, rfl, rfl, heappush_perm sel.queue p, ?_, rfl, rfl⟩
    simpa [Doctor.add_patient] using (heappush_perm sel.queue p).length_eq

/-- Concrete patient used by the C8 and C10 witnesses. -/
def c8_pat : Patient :=
  Patient.init "P8" "n" none 0 0 "App" ("Minor Checkup", 1) 0

/-- Concrete doctor used by the C8 witness. -/
def c8_doc : Doctor :=
  Doctor.init "DOC-1" "General" 10

/-- C8 witness at a concrete registry of one General doctor. -/
theorem c8_assign_effects_witness :
    assign_patient [c8_doc] c8_pat
      = AssignResult.ok (c8_doc.add_patient c8_pat) [c8_doc.add_patient c8_pat]
          [{ patient_id := c8_pat.patient_id
             doctor_id := (c8_doc.add_patient c8_pat).doctor_id
             estimated_wait := (c8_doc.add_patient c8_pat).estimate_wait_time }] ∧
    (∃ sel, min_by_wait (candidate_doctors [c8_doc] c8_pat) = some sel ∧
      c8_doc.add_patient c8_pat = sel.add_patient c8_pat ∧
      (c8_doc.add_patient c8_pat).queue.Perm (c8_pat :: sel.queue) ∧
      (c8_doc.add_patient c8_pat).queue.length = sel.queue.length + 1 ∧
      (c8_doc.add_patient c8_pat).doctor_id = sel.doctor_id ∧
      [NotificationEvent.mk c8_pat.patient_id (c8_doc.add_patient c8_pat).doctor_id
         (c8_doc.add_patient c8_pat).estimate_wait_time]
        = [NotificationEvent.mk c8_pat.patient_id (c8_doc.add_patient c8_pat).doctor_id
            (((c8_doc.add_patient c8_pat).queue.length : Int)
               * (c8_doc.add_patient c8_pat).avg_consultation_time)]) :=
  ⟨rfl, c8_assign_effects [c8_doc] c8_pat (c8_doc.add_patient c8_pat)
    [c8_doc.add_patient c8_pat]
    [NotificationEvent.mk c8_pat.patient_id (c8_doc.add_patient c8_pat).doctor_id
      (c8_doc.add_patient c8_pat).estimate_wait_time] rfl⟩

/-- C10: on a registry with unique doctor ids (the dict invariant), a
successful `assign_patient` call changes exactly the selected doctor's
registry entry — its queue gains exactly the assigned patient (size + 1)
while its id, specialization and average consultation time are unchanged —
and leaves every other entry and the id sequence untouched. -/
theorem c10_assign_frame (ds : List Doctor) (p : Patient) (best : Doctor)
    (ds2 : List Doctor) (evs : List NotificationEvent)
    (hnodup : (ds.map Doctor.doctor_id).Nodup)
    (h : assign_patient ds p = AssignResult.ok best ds2 evs) :
    ∃ sel l1 l2,
      min_by_wait (candidate_doctors ds p) = some sel ∧
      ds = l1 ++ sel :: l2 ∧
      ds2 = l1 ++ best :: l2 ∧
      best = sel.add_patient p ∧
      best.queue.Perm (p :: sel.queue) ∧
      best.queue.length = sel.queue.length + 1 ∧
      best.doctor_id = sel.doctor_id ∧
      best.specialization = sel.specialization ∧
      best.avg_consultation_time = sel.avg_consultation_time ∧
      ds2.map Doctor.doctor_id = ds.map Doctor.doctor_id := by
  cases hm : min_by_wait (candidate_doctors ds p) with
  | none =>
    rw [assign_patient_eq_err hm] at h
    exact AssignResult.noConfusion h
  | some sel =>
    rw [assign_patient_eq_ok hm] at h
    cases h
    have hmem : sel ∈ ds := candidate_doctors_mem (min_by_wait_mem hm)
    obtain ⟨l1, l2, hds⟩ := List.append_of_mem hmem
    subst hds
    rw [List.map_append, List.map_cons] at hnodup
    obtain ⟨hn1, hn2, hdisj⟩ := List.nodup_append.mp hnodup
    have hl1 : ∀ d ∈ l1, d.doctor_id ≠ sel.doctor_id := by
      intro d hd heq
      exact List.disjoint_left.mp hdisj (List.mem_map_of_mem Doctor.doctor_id hd)
        (by rw [heq]; exact List.mem_cons_self _ _)
    have hl2 : ∀ d ∈ l2, d.doctor_id ≠ sel.doctor_id := by
      intro d hd heq
      exact (List.nodup_cons.mp hn2).1
        (by rw [← heq]; exact List.mem_map_of_mem Doctor.doctor_id hd)
    have hc1 : ∀ d ∈ l1,
        (if d.doctor_id = sel.doctor_id then sel.add_patient p else d) = id d :=
      fun d hd => if_neg (hl1 d hd)
    have hc2 : ∀ d ∈ l2,
        (if d.doctor_id = sel.doctor_id then sel.add_patient p else d) = id d :=
      fun d hd => if_neg (hl2 d hd)
    have hmap1 : l1.map (fun d =>
        if d.doctor_id = sel.doctor_id then sel.add_patient p else d) = l1 := by
      rw [List.map_congr_left hc1, List.map_id]
    have hmap2 : l2.map (fun d =>
        if d.doctor_id = sel.doctor_id then sel.add_patient p else d) = l2 := by
      rw [List.map_congr_left hc2, List.map_id]
    have hself : (if sel.doctor_id = sel.doctor_id
        then sel.add_patient p else sel) = sel.add_patient p := if_pos rfl
    refine ⟨sel, l1, l2, rfl, rfl, ?_, rfl, heappush_perm sel.queue p, ?_,
      rfl, rfl, rfl, ?_⟩
    · rw [List.map_append, List.map_cons, hmap1, hmap2, hself]
    · simpa [Doctor.add_patient] using (heappush_perm sel.queue p).length_eq
    · rw [List.map_append, List.map_cons, hmap1, hmap2, hself]
      simp only [List.map_append, List.map_cons]
      rfl

/-- Concrete doctors used by the C10 witness. -/
def c10_d1 : Doctor :=
  Doctor.init "DOC-1" "General" 10

/-- Second concrete doctor used by the C10 witness. -/
def c10_d2 : Doctor :=
  Doctor.init "DOC-2" "General" 15

/-- C10 witness on a two-doctor registry with distinct ids. -/
theorem c10_assign_frame_witness :
    ([c10_d1, c10_d2].map Doctor.doctor_id).Nodup ∧
    assign_patient [c10_d1, c10_d2] c8_pat
      = AssignResult.ok (c10_d1.add_patient c8_pat)
          [c10_d1.add_patient c8_pat, c10_d2]
          [NotificationEvent.mk c8_pat.patient_id
            (c10_d1.add_patient c8_pat).doctor_id
            (c10_d1.add_patient c8_pat).estimate_wait_time] ∧
    (∃ sel l1 l2,
      min_by_wait (candidate_doctors [c10_d1, c10_d2] c8_pat) = some sel ∧
      [c10_d1, c10_d2] = l1 ++ sel :: l2 ∧
      [c10_d1.add_patient c8_pat, c10_d2] = l1 ++ c10_d1.add_patient c8_pat :: l2 ∧
      c10_d1.add_patient c8_pat = sel.add_patient c8_pat ∧
      (c10_d1.add_patient c8_pat).queue.Perm (c8_pat :: sel.queue) ∧
      (c10_d1.add_patient c8_pat).queue.length = sel.queue.length + 1 ∧
      (c10_d1.add_patient c8_pat).doctor_id = sel.doctor_id ∧
      (c10_d1.add_patient c8_pat).specialization = sel.specialization ∧
      (c10_d1.add_patient c8_pat).avg_consultation_time = sel.avg_consultation_time ∧
      [c10_d1.add_patient c8_pat, c10_d2].map Doctor.doctor_id
        = [c10_d1, c10_d2].map Doctor.doctor_id) :=
  ⟨by decide, rfl,
   c10_assign_frame [c10_d1, c10_d2] c8_pat (c10_d1.add_patient c8_pat)
     [c10_d1.add_patient c8_pat, c10_d2]
     [NotificationEvent.mk c8_pat.patient_id
       (c10_d1.add_patient c8_pat).doctor_id
       (c10_d1.add_patient c8_pat).estimate_wait_time]
     (by decide) rfl⟩
